import Mathlib

/-!
Shallow embedding of the stock-analysis application (`app.py`) and proofs
about its financial-statement pipeline: field resolution, the period join,
per-year metric strings (debt ratio, EPS, PER range), the currency
formatter, and the favorites store.

Numeric cell values are modelled as exact rationals; a Python `float` cell
is either a number, `NaN` (missing value inside a data frame), or Python
`None` (produced when a column fails to resolve).  Fallible code is
modelled with `Except`.
-/

namespace StockApp

/-- A Python value flowing through the pandas rows: `none` is Python `None`
(unresolved column), `nan` is a missing cell, `num q` a numeric cell. -/
inductive PyVal where
  | none : PyVal
  | nan : PyVal
  | num : ℚ → PyVal
deriving DecidableEq, Repr

/-- Python truthiness of such a value (`None` falsy, `NaN` truthy, a number
truthy iff nonzero). -/
def pyTruthy : PyVal → Bool
  | PyVal.none => false
  | PyVal.nan => true
  | PyVal.num q => decide (q ≠ 0)

/-- Python comparison `v > 0` (False for `NaN`; the code only evaluates it
on guarded values, never on `None`). -/
def pyPos : PyVal → Bool
  | PyVal.num q => decide (0 < q)
  | _ => false

/-- Python comparison `v <= 0` (False for `NaN`). -/
def pyNonpos : PyVal → Bool
  | PyVal.num q => decide (q ≤ 0)
  | _ => false

/-- `pd.notnull`: true exactly on numeric cells. -/
def pdNotnull : PyVal → Bool
  | PyVal.num _ => true
  | _ => false

/-- Numeric payload of a value (only read under guards that force `num`). -/
def pyNum : PyVal → ℚ
  | PyVal.num q => q
  | _ => 0

/-! ### Rational arithmetic

The typeclass arithmetic on `ℚ` is irreducible by library design, so the
embedding computes through these wrappers on `Rat.divInt`; the bridge
lemmas `qMul_eq_mul`, `qDiv_eq_div`, `qSub_eq_sub`, `qAbs_eq_abs`,
`pow10_eq_pow` below prove they are the ordinary field operations. -/

/-- A rational from an integer. -/
def qOfInt (z : ℤ) : ℚ :=
  Rat.divInt z 1

/-- Product of two rationals. -/
def qMul (a b : ℚ) : ℚ :=
  Rat.divInt (a.num * b.num) ((a.den : ℤ) * (b.den : ℤ))

/-- Quotient of two rationals (zero when the divisor is zero, as the code
never divides without a nonzero guard). -/
def qDiv (a b : ℚ) : ℚ :=
  Rat.divInt (a.num * (b.den : ℤ)) ((a.den : ℤ) * b.num)

/-- Difference of two rationals. -/
def qSub (a b : ℚ) : ℚ :=
  Rat.divInt (a.num * (b.den : ℤ) - b.num * (a.den : ℤ)) ((a.den : ℤ) * (b.den : ℤ))

/-- Absolute value of a rational. -/
def qAbs (q : ℚ) : ℚ :=
  if q < 0 then Rat.divInt (-q.num) (q.den : ℤ) else q

/-- Minimum of two rationals. -/
def qMin (a b : ℚ) : ℚ :=
  if a ≤ b then a else b

/-- Maximum of two rationals. -/
def qMax (a b : ℚ) : ℚ :=
  if a ≤ b then b else a

/-- The rational `10 ^ d`. -/
def pow10 (d : ℕ) : ℚ :=
  qOfInt ((10 ^ d : ℕ) : ℤ)

/-! ### Decimal rendering of rationals, following Python `format` -/

/-- Decimal digits of a natural number, most significant first; the first
argument is fuel making the recursion structural. -/
def natDigitsAux : ℕ → ℕ → List Char
  | 0, _ => []
  | f + 1, n =>
    if n < 10 then [Nat.digitChar n]
    else natDigitsAux f (n / 10) ++ [Nat.digitChar (n % 10)]

/-- Decimal digits of a natural number, most significant first. -/
def natDigits (n : ℕ) : List Char :=
  natDigitsAux (n + 1) n

/-- Insert thousands separators into a digit list given least significant
digit first. -/
def group3 : List Char → List Char
  | a :: b :: c :: d :: rest => a :: b :: c :: ',' :: group3 (d :: rest)
  | l => l

/-- Thousands-grouped rendering of digits given most significant first. -/
def groupDigits (l : List Char) : List Char :=
  (group3 l.reverse).reverse

/-- Floor of a rational, computed directly on numerator and denominator. -/
def ratFloor (q : ℚ) : ℤ :=
  Int.fdiv q.num (q.den : ℤ)

/-- Round a rational to the nearest integer, ties to even — the rounding
Python's `format` applies to the (here exactly represented) value. -/
def rne (q : ℚ) : ℤ :=
  let f := ratFloor q
  let r := qSub q (qOfInt f)
  if r < Rat.divInt 1 2 then f
  else if Rat.divInt 1 2 < r then f + 1
  else if f % 2 = 0 then f else f + 1

/-- Left-pad a digit list with zeros to a given width. -/
def padZeros (w : ℕ) (l : List Char) : List Char :=
  List.replicate (w - l.length) '0' ++ l

/-- Python `format(q, ",.df")` / `format(q, ".df")` on an exactly
represented value: fixed-point with `d` decimals, optional thousands
grouping, and the sign of the input preserved (so `-0.004` renders as
`-0.00`, as in Python). -/
def fmtQ (q : ℚ) (d : ℕ) (grouped : Bool) : String :=
  let n : ℤ := rne (qMul q (pow10 d))
  let na : ℕ := n.natAbs
  let ip : ℕ := na / 10 ^ d
  let fp : ℕ := na % 10 ^ d
  (if q < 0 then "-" else "") ++
    String.mk (if grouped then groupDigits (natDigits ip) else natDigits ip) ++
    (if d = 0 then "" else "." ++ String.mk (padZeros d (natDigits fp)))

/-- Python `str` of an integer. -/
def intStr (z : ℤ) : String :=
  (if z < 0 then "-" else "") ++ String.mk (natDigits z.natAbs)

/-! ### `format_large_currency` -/

/-- Embedding of `format_large_currency(value, symbol)`: `pd.isna` or zero
gives the `"-"` sentinel; KRW amounts are scaled to 조 / 억, other
currencies to B / M, with thresholds on the absolute value. -/
def format_large_currency (value : PyVal) (symbol : String) : String :=
  match value with
  | PyVal.none => "-"
  | PyVal.nan => "-"
  | PyVal.num q =>
    if q = 0 then "-"
    else if symbol = "₩" then
      if pow10 12 ≤ qAbs q then symbol ++ " " ++ (fmtQ (qDiv q (pow10 12)) 1 true ++ "조")
      else if pow10 8 ≤ qAbs q then symbol ++ " " ++ (fmtQ (qDiv q (pow10 8)) 0 true ++ "억")
      else symbol ++ " " ++ fmtQ q 0 true
    else
      if pow10 9 ≤ qAbs q then symbol ++ " " ++ (fmtQ (qDiv q (pow10 9)) 2 true ++ " B")
      else if pow10 6 ≤ qAbs q then symbol ++ " " ++ (fmtQ (qDiv q (pow10 6)) 2 true ++ " M")
      else symbol ++ " " ++ fmtQ q 0 true

/-- Modelled from the spec's words for §4.4 (null or zero gives the `"-"`
sentinel; USD-like thresholds 1e9 / 1e6 with 2 decimals; KRW-like
thresholds 1e12 / 1e8 with 1 / 0 decimals; else thousands-grouped
integer), to be compared with the code's `format_large_currency`. -/
def specCurrencyFormat (value : PyVal) (symbol : String) : String :=
  match value with
  | PyVal.num q =>
    if q = 0 then "-"
    else
      let isKRW := symbol = "₩"
      if isKRW then
        if qAbs q ≥ pow10 12 then symbol ++ " " ++ fmtQ (qDiv q (pow10 12)) 1 true ++ "조"
        else if qAbs q ≥ pow10 8 then symbol ++ " " ++ fmtQ (qDiv q (pow10 8)) 0 true ++ "억"
        else symbol ++ " " ++ fmtQ q 0 true
      else
        if qAbs q ≥ pow10 9 then symbol ++ " " ++ fmtQ (qDiv q (pow10 9)) 2 true ++ " B"
        else if qAbs q ≥ pow10 6 then symbol ++ " " ++ fmtQ (qDiv q (pow10 6)) 2 true ++ " M"
        else symbol ++ " " ++ fmtQ q 0 true
  | _ => "-"

/-! ### Favorites store -/

/-- Embedding of `load_favorites()`.  The argument is the state of
`favorites.json`: `Option.none` when the file is absent, otherwise the
result of `json.load` — `Except.error` when parsing raised.  Both failure
shapes collapse to the empty list, mirroring the `try/except` and the
missing-file branch. -/
def load_favorites (file : Option (Except String (List String))) : List String :=
  match file with
  | Option.none => []
  | Option.some (Except.error _) => []
  | Option.some (Except.ok l) => l

/-- Embedding of `add_favorite(ticker)` on the in-memory list: the result
list, paired with whether `save_favorites` was called. -/
def add_favorite (favs : List String) (ticker : String) : List String × Bool :=
  if ticker ∈ favs then (favs, false) else (favs ++ [ticker], true)

/-- Embedding of `remove_favorite(ticker)`: Python `list.remove` deletes
the first occurrence; paired with whether `save_favorites` was called. -/
def remove_favorite (favs : List String) (ticker : String) : List String × Bool :=
  if ticker ∈ favs then (favs.erase ticker, true) else (favs, false)

/-! ### Dates, price bars, data frames -/

/-- A fiscal-period-end or trading date: the calendar year plus an ordinal
encoding the position within the year (month/day).  Comparison is
lexicographic, as for real dates. -/
structure Date where
  year : ℤ
  sub : ℕ
deriving DecidableEq, Repr

/-- Date order (ascending calendar order). -/
def dle (a b : Date) : Prop :=
  a.year < b.year ∨ (a.year = b.year ∧ a.sub ≤ b.sub)

instance (a b : Date) : Decidable (dle a b) := by
  unfold dle; infer_instance

/-- One bar of the 5-year price history. -/
structure Bar where
  date : Date
  low : ℚ
  high : ℚ
deriving DecidableEq, Repr

/-- A transposed pandas frame: column names plus, per fiscal date, the cell
values aligned with the columns. -/
structure Frame where
  cols : List String
  rows : List (Date × List PyVal)
deriving Repr

/-- Whether the character list `pat` occurs contiguously in `s`, starting
at its head. -/
def startsWithL : List Char → List Char → Bool
  | [], _ => true
  | _ :: _, [] => false
  | a :: as, b :: bs => a == b && startsWithL as bs

/-- Whether `pat` occurs contiguously anywhere in `s`. -/
def occursIn (pat : List Char) : List Char → Bool
  | [] => pat.isEmpty
  | c :: rest => startsWithL pat (c :: rest) || occursIn pat rest

/-- Python's `pat in s` substring test. -/
def strIn (pat s : String) : Bool :=
  occursIn pat.data s.data

/-! ### Field resolution -/

/-- `next((c for c in cols if pat in c), None)`: the first column whose
name contains `pat`. -/
def findCol (cols : List String) (pat : String) : Option String :=
  cols.find? (fun c => strIn pat c)

/-- Python's `x = primary; if not x: x = secondary` on optional strings:
falls back when the first result is `None` (or an empty, hence falsy,
string). -/
def orElsePy (a b : Option String) : Option String :=
  match a with
  | Option.some s => if s = "" then b else Option.some s
  | Option.none => b

/-- `rev_col`: first column containing "Total Revenue". -/
def rev_col (cols : List String) : Option String :=
  findCol cols "Total Revenue"

/-- `op_col`: first column containing "Operating Income". -/
def op_col (cols : List String) : Option String :=
  findCol cols "Operating Income"

/-- `liab_col`: "Total Liabilities Net Minority Interest" preferred,
falling back to "Total Liabilities". -/
def liab_col (cols : List String) : Option String :=
  orElsePy (findCol cols "Total Liabilities Net Minority Interest")
    (findCol cols "Total Liabilities")

/-- `equity_col`: "Stockholders Equity" preferred, falling back to
"Common Stock Equity". -/
def equity_col (cols : List String) : Option String :=
  orElsePy (findCol cols "Stockholders Equity") (findCol cols "Common Stock Equity")

/-- `eps_col`: "Diluted EPS" preferred, falling back to "Basic EPS". -/
def eps_col (cols : List String) : Option String :=
  orElsePy (findCol cols "Diluted EPS") (findCol cols "Basic EPS")

/-- Generic two-tier resolver the three fallback resolvers instantiate. -/
def resolvePair (cols : List String) (prim sec : String) : Option String :=
  orElsePy (findCol cols prim) (findCol cols sec)

/-! ### The period join -/

/-- First binding of a date in an association list (`DataFrame` index
lookup; the frames are maps, so at most one binding per date). -/
def lookupD {α : Type} : List (Date × α) → Date → Option α
  | [], _ => Option.none
  | (d, a) :: rest, k => if d = k then Option.some a else lookupD rest k

/-- Column list of `df_fin.join(df_bs, lsuffix='_fin', rsuffix='_bs')`:
left columns then right columns, names shared by both sides suffixed. -/
def mergedCols (fin bs : Frame) : List String :=
  fin.cols.map (fun c => if c ∈ bs.cols then c ++ "_fin" else c) ++
    bs.cols.map (fun c => if c ∈ fin.cols then c ++ "_bs" else c)

/-- Row part of the inner join on the date index: income rows that also
have a balance row on exactly the same date, cells concatenated. -/
def joinRows (fin bs : Frame) : List (Date × List PyVal) :=
  fin.rows.filterMap (fun p =>
    (lookupD bs.rows p.1).map (fun vb => (p.1, p.2 ++ vb)))

/-- Order on joined rows: by date. -/
def rowLe (a b : Date × List PyVal) : Prop :=
  dle a.1 b.1

instance (a b : Date × List PyVal) : Decidable (rowLe a b) := by
  unfold rowLe; infer_instance

/-- `df_merged`: inner join, then the `index.year >= 2021` filter, then
`sort_index(ascending=True)`. -/
def df_merged (fin bs : Frame) : List (Date × List PyVal) :=
  List.insertionSort rowLe
    ((joinRows fin bs).filter (fun p => decide (2021 ≤ p.1.year)))

/-- Calendar years of a joined row sequence. -/
def yearsOf (l : List (Date × List PyVal)) : List ℤ :=
  l.map (fun p => p.1.year)

/-! ### Per-row metric strings -/

/-- `row[c]` in a frame row: the cell aligned with column `c`. -/
def cell (cols : List String) (vals : List PyVal) (c : String) : PyVal :=
  match cols.findIdx? (fun x => x = c) with
  | Option.some i => vals.getD i PyVal.none
  | Option.none => PyVal.none

/-- `row[c] if c else dflt` — the resolved-column access with Python
truthiness on the column name. -/
def optCell (cols : List String) (vals : List PyVal) (c : Option String)
    (dflt : PyVal) : PyVal :=
  match c with
  | Option.some s => if s = "" then dflt else cell cols vals s
  | Option.none => dflt

/-- Embedding of the debt-ratio block: `"-"` unless both columns resolved
(to truthy names), both cells are numeric, and equity is nonzero; then
`f-string` of `liabilities / equity` with 2 decimals. -/
def debt_ratio_str (liabC eqC : Option String) (cols : List String)
    (vals : List PyVal) : String :=
  match liabC, eqC with
  | Option.some lc, Option.some ec =>
    if lc = "" ∨ ec = "" then "-"
    else
      match cell cols vals lc, cell cols vals ec with
      | PyVal.num l, PyVal.num e => if e = 0 then "-" else fmtQ (qDiv l e) 2 false
      | _, _ => "-"
  | _, _ => "-"

/-- Embedding of `eps_str`: the f-string is evaluated unconditionally, so
a `None` EPS (unresolved column) raises `TypeError`; `NaN` formats as
`"nan"`; numbers use 0 decimals with grouping for ₩, else 2 decimals. -/
def eps_str (eps : PyVal) (currency_symbol : String) : Except String String :=
  match eps with
  | PyVal.none =>
    Except.error "TypeError: unsupported format string passed to NoneType.__format__"
  | PyVal.nan => Except.ok "nan"
  | PyVal.num q =>
    Except.ok (if currency_symbol = "₩" then fmtQ q 0 true else fmtQ q 2 false)

/-- `hist_year['Low'].min()` over the bars of one calendar year. -/
def yearLow : List Bar → ℚ
  | [] => 0
  | b :: rest => rest.foldl (fun m x => qMin m x.low) b.low

/-- `hist_year['High'].max()` over the bars of one calendar year. -/
def yearHigh : List Bar → ℚ
  | [] => 0
  | b :: rest => rest.foldl (fun m x => qMax m x.high) b.high

/-- Embedding of the PER block: bars are bucketed by calendar year; the
range is computed only when the year has bars and `eps` is truthy and
positive; a truthy nonpositive `eps` yields the loss marker; everything
else yields `"-"`. -/
def per_range_str (hist : List Bar) (year : ℤ) (eps : PyVal) : String :=
  let hist_year := hist.filter (fun b => decide (b.date.year = year))
  if !hist_year.isEmpty && pyTruthy eps && pyPos eps then
    fmtQ (qDiv (yearLow hist_year) (pyNum eps)) 1 false ++ " ~ " ++
      fmtQ (qDiv (yearHigh hist_year) (pyNum eps)) 1 false ++ "배"
  else if pyTruthy eps && pyNonpos eps then "N/A (적자)"
  else "-"

/-- One rendered output row of `result_data`. -/
structure OutRow where
  yearStr : String
  revenue : String
  opIncome : String
  eps : String
  perRange : String
  debtRatio : String
deriving DecidableEq, Repr

/-- The analysis loop (steps 2–4 of the script): join, filter, sort,
resolve columns once, then build one rendered row per joined year.  An
exception inside a row (the `eps_str` f-string on `None`) aborts the whole
loop, as the surrounding `try` does. -/
def analyze (fin bs : Frame) (hist : List Bar) (currency_symbol : String) :
    Except String (List OutRow) :=
  let cols := mergedCols fin bs
  let merged := df_merged fin bs
  let revC := rev_col cols
  let opC := op_col cols
  let liabC := liab_col cols
  let eqC := equity_col cols
  let epsC := eps_col cols
  merged.mapM (fun p =>
    let revenue := optCell cols p.2 revC (PyVal.num 0)
    let op_income := optCell cols p.2 opC (PyVal.num 0)
    let eps := optCell cols p.2 epsC PyVal.none
    let drs := debt_ratio_str liabC eqC cols p.2
    (eps_str eps currency_symbol).map (fun es =>
      { yearStr := intStr p.1.year
        revenue := format_large_currency revenue currency_symbol
        opIncome := format_large_currency op_income currency_symbol
        eps := es
        perRange := per_range_str hist p.1.year eps
        debtRatio := drs }))

/-- One user action on the favorites list. -/
inductive FavOp where
  | add : String → FavOp
  | remove : String → FavOp

/-- Apply one favorites operation, keeping only the resulting list. -/
def applyFavOp (favs : List String) : FavOp → List String
  | FavOp.add t => (add_favorite favs t).1
  | FavOp.remove t => (remove_favorite favs t).1

/-- Apply a sequence of favorites operations. -/
def applyFavOps (favs : List String) (ops : List FavOp) : List String :=
  ops.foldl applyFavOp favs

/-! ### Predicates and concrete instances used by the theorems -/

instance : IsTotal (Date × List PyVal) rowLe :=
  ⟨fun a b => by unfold rowLe dle; omega⟩

instance : IsTrans (Date × List PyVal) rowLe :=
  ⟨fun a b c hab hbc => by unfold rowLe dle at hab hbc ⊢; omega⟩

/-- The precondition under which the debt ratio is computed: both columns
resolved to truthy names, both cells numeric, equity nonzero. -/
def debtPre (liabC eqC : Option String) (cols : List String)
    (vals : List PyVal) : Prop :=
  ∃ lc ec : String, ∃ l e : ℚ,
    liabC = Option.some lc ∧ eqC = Option.some ec ∧ lc ≠ "" ∧ ec ≠ "" ∧
      cell cols vals lc = PyVal.num l ∧ cell cols vals ec = PyVal.num e ∧ e ≠ 0

/-- `c` is the first element of `cols` containing the pattern `pat`. -/
def firstMatch (pat : String) (cols : List String) (c : String) : Prop :=
  strIn pat c = true ∧
    ∃ pre post, cols = pre ++ c :: post ∧ ∀ d ∈ pre, strIn pat d = false

/-- Income statement of the spec's worked scenario (the scenario's
`EPS(2021)=2` is carried by the income rows, where EPS lives). -/
def finEx : Frame :=
  ⟨["Total Revenue", "Operating Income", "Diluted EPS"],
   [(⟨2021, 0⟩, [PyVal.num 100, PyVal.num 20, PyVal.num 2]),
    (⟨2022, 0⟩, [PyVal.num 110, PyVal.num 25, PyVal.num 3])]⟩

/-- Balance sheet of the spec's worked scenario: 2021 only. -/
def bsEx : Frame :=
  ⟨["Total Liabilities Net Minority Interest", "Stockholders Equity"],
   [(⟨2021, 0⟩, [PyVal.num 80, PyVal.num 40])]⟩

/-- Price history of the spec's worked scenario: one 2021 bar, low 10,
high 20. -/
def histEx : List Bar :=
  [⟨⟨2021, 5⟩, 10, 20⟩]

/-- Income statement with two period ends inside the same calendar year
(e.g. a fiscal-year change). -/
def finTwo : Frame :=
  ⟨["Total Revenue"], [(⟨2021, 0⟩, [PyVal.num 1]), (⟨2021, 1⟩, [PyVal.num 2])]⟩

/-- Balance sheet matching both `finTwo` period ends. -/
def bsTwo : Frame :=
  ⟨["Total Liabilities"], [(⟨2021, 0⟩, [PyVal.num 3]), (⟨2021, 1⟩, [PyVal.num 4])]⟩

/-! ### Bridge lemmas: the computing wrappers are the field operations -/

theorem qOfInt_eq_intCast (z : ℤ) : qOfInt z = (z : ℚ) :=
  (Rat.intCast_eq_divInt z).symm

theorem qMul_eq_mul (a b : ℚ) : qMul a b = a * b := by
  calc qMul a b
      = Rat.divInt a.num (a.den : ℤ) * Rat.divInt b.num (b.den : ℤ) :=
        (Rat.divInt_mul_divInt' _ _ _ _).symm
    _ = a * b := by rw [Rat.num_divInt_den, Rat.num_divInt_den]

theorem qDiv_eq_div (a b : ℚ) : qDiv a b = a / b := by
  calc qDiv a b
      = Rat.divInt a.num (a.den : ℤ) / Rat.divInt b.num (b.den : ℤ) :=
        (Rat.divInt_div_divInt _ _ _ _).symm
    _ = a / b := by rw [Rat.num_divInt_den, Rat.num_divInt_den]

theorem qSub_eq_sub (a b : ℚ) : qSub a b = a - b := by
  have ha : (a.den : ℤ) ≠ 0 := Int.natCast_ne_zero.mpr a.den_nz
  have hb : (b.den : ℤ) ≠ 0 := Int.natCast_ne_zero.mpr b.den_nz
  calc qSub a b
      = Rat.divInt a.num (a.den : ℤ) - Rat.divInt b.num (b.den : ℤ) :=
        (Rat.divInt_sub_divInt _ _ ha hb).symm
    _ = a - b := by rw [Rat.num_divInt_den, Rat.num_divInt_den]

theorem qAbs_eq_abs (q : ℚ) : qAbs q = |q| := by
  unfold qAbs
  by_cases h : q < 0
  · rw [if_pos h, abs_of_neg h, ← Rat.neg_divInt, Rat.num_divInt_den]
  · rw [if_neg h, abs_of_nonneg (not_lt.mp h)]

theorem qMin_eq_min (a b : ℚ) : qMin a b = min a b :=
  (min_def a b).symm

theorem qMax_eq_max (a b : ℚ) : qMax a b = max a b :=
  (max_def a b).symm

theorem pow10_eq_pow (d : ℕ) : pow10 d = (10 : ℚ) ^ d := by
  rw [pow10, qOfInt_eq_intCast]
  push_cast
  ring

/-! ### C9: loading favorites never surfaces an error -/

/-- C9: `load_favorites` returns the empty collection when the backing file
is absent, and also when the file exists but its content is unparseable —
the error is swallowed, never surfaced. -/
theorem load_favorites_missing_or_corrupt_gives_empty :
    load_favorites Option.none = [] ∧
      ∀ e : String, load_favorites (Option.some (Except.error e)) = [] :=
  ⟨rfl, fun _ => rfl⟩

/-! ### C10: the favorites list stays a duplicate-free ordered set -/

theorem nodup_applyFavOp (favs : List String) (op : FavOp) (h : favs.Nodup) :
    (applyFavOp favs op).Nodup := by
  cases op with
  | add t =>
    by_cases ht : t ∈ favs
    · simpa [applyFavOp, add_favorite, ht] using h
    · simp only [applyFavOp, add_favorite, ht, if_false]
      exact List.nodup_append.mpr ⟨h, List.nodup_singleton t,
        List.disjoint_singleton.mpr ht⟩
  | remove t =>
    by_cases ht : t ∈ favs
    · simpa [applyFavOp, remove_favorite, ht] using h.erase t
    · simpa [applyFavOp, remove_favorite, ht] using h

theorem nodup_applyFavOps : ∀ (ops : List FavOp) (favs : List String),
    favs.Nodup → (applyFavOps favs ops).Nodup
  | [], _, h => h
  | op :: ops, favs, h =>
    nodup_applyFavOps ops (applyFavOp favs op) (nodup_applyFavOp favs op h)

/-- C10: `add_favorite` appends the ticker at the end only when absent,
`remove_favorite` deletes it only when present, each is a no-op performing
no file write when its membership precondition fails, and any sequence of
these operations preserves freedom from duplicates. -/
theorem favorites_add_remove_contract (favs : List String) (t : String) :
    (t ∈ favs → add_favorite favs t = (favs, false)) ∧
    (t ∉ favs → add_favorite favs t = (favs ++ [t], true)) ∧
    (t ∈ favs → remove_favorite favs t = (favs.erase t, true)) ∧
    (t ∉ favs → remove_favorite favs t = (favs, false)) ∧
    (∀ ops : List FavOp, favs.Nodup → (applyFavOps favs ops).Nodup) := by
  refine ⟨fun h => ?_, fun h => ?_, fun h => ?_, fun h => ?_,
    fun ops h => nodup_applyFavOps ops favs h⟩
  · simp [add_favorite, h]
  · simp [add_favorite, h]
  · simp [remove_favorite, h]
  · simp [remove_favorite, h]

/-- Witness for C10 at concrete inputs. -/
theorem favorites_add_remove_contract_witness :
    add_favorite ["AAPL"] "MSFT" = (["AAPL", "MSFT"], true) ∧
    add_favorite ["AAPL"] "AAPL" = (["AAPL"], false) ∧
    remove_favorite ["AAPL", "MSFT"] "AAPL" = (["AAPL", "MSFT"].erase "AAPL", true) ∧
    remove_favorite ["MSFT"] "AAPL" = (["MSFT"], false) ∧
    (applyFavOps ["AAPL"] [FavOp.add "MSFT", FavOp.remove "AAPL"]).Nodup :=
  ⟨(favorites_add_remove_contract ["AAPL"] "MSFT").2.1 (by decide),
   (favorites_add_remove_contract ["AAPL"] "AAPL").1 (by decide),
   (favorites_add_remove_contract ["AAPL", "MSFT"] "AAPL").2.2.1 (by decide),
   (favorites_add_remove_contract ["MSFT"] "AAPL").2.2.2.1 (by decide),
   (favorites_add_remove_contract ["AAPL"] "X").2.2.2.2
     [FavOp.add "MSFT", FavOp.remove "AAPL"] (by decide)⟩

/-! ### C8: the currency formatter -/

theorem string_length_zero {s : String} (h : s.length = 0) : s = "" := by
  cases s with
  | mk data =>
    cases data with
    | nil => rfl
    | cons c cs => simp [String.length] at h

theorem append_space_ne_dash (a b : String) : a ++ " " ++ b ≠ "-" := by
  intro h
  have hl : a.length + " ".length + b.length = "-".length := by
    rw [← String.length_append, ← String.length_append, h]
  have h1 : " ".length = 1 := rfl
  have h2 : "-".length = 1 := rfl
  rw [h1, h2] at hl
  have ha : a = "" := string_length_zero (by omega)
  have hb : b = "" := string_length_zero (by omega)
  rw [ha, hb] at h
  exact absurd h (by decide)

theorem fmtQ_of_neg (q : ℚ) (d : ℕ) (g : Bool) (h : q < 0) :
    ∃ s, fmtQ q d g = "-" ++ s := by
  simp only [fmtQ]
  rw [if_pos h, String.append_assoc]
  exact ⟨_, rfl⟩

/-- C8: the code's formatter agrees with the spec's description everywhere;
it yields the `"-"` sentinel exactly on null or zero values; and the sign
of a negative value survives into the rendered number, thresholds being
taken on the absolute value. -/
theorem format_large_currency_contract (v : PyVal) (sym : String) :
    format_large_currency v sym = specCurrencyFormat v sym ∧
    (format_large_currency v sym = "-" ↔
      v = PyVal.none ∨ v = PyVal.nan ∨ v = PyVal.num 0) ∧
    (∀ q : ℚ, v = PyVal.num q → q < 0 →
      ∃ s, format_large_currency v sym = sym ++ " " ++ ("-" ++ s)) := by
  refine ⟨?_, ⟨?_, ?_⟩, ?_⟩
  · cases v with
    | none => rfl
    | nan => rfl
    | num q =>
      simp [format_large_currency, specCurrencyFormat, ge_iff_le, String.append_assoc]
  · intro h
    cases v with
    | none => exact Or.inl rfl
    | nan => exact Or.inr (Or.inl rfl)
    | num q =>
      refine Or.inr (Or.inr ?_)
      by_cases h0 : q = 0
      · rw [h0]
      · exfalso
        simp only [format_large_currency, if_neg h0] at h
        split_ifs at h <;> exact append_space_ne_dash _ _ h
  · intro h
    rcases h with h | h | h <;> rw [h] <;> rfl
  · rintro q rfl hq
    have h0 : ¬ q = 0 := ne_of_lt hq
    simp only [format_large_currency, if_neg h0]
    by_cases hk : sym = "₩"
    · rw [if_pos hk]
      split_ifs with h1 h2
      · obtain ⟨s, hs⟩ := fmtQ_of_neg (qDiv q (pow10 12)) 1 true
          (by rw [qDiv_eq_div, pow10_eq_pow]; exact div_neg_of_neg_of_pos hq (by positivity))
        exact ⟨s ++ "조", by rw [hs]; simp [String.append_assoc]⟩
      · obtain ⟨s, hs⟩ := fmtQ_of_neg (qDiv q (pow10 8)) 0 true
          (by rw [qDiv_eq_div, pow10_eq_pow]; exact div_neg_of_neg_of_pos hq (by positivity))
        exact ⟨s ++ "억", by rw [hs]; simp [String.append_assoc]⟩
      · obtain ⟨s, hs⟩ := fmtQ_of_neg q 0 true hq
        exact ⟨s, by rw [hs]⟩
    · rw [if_neg hk]
      split_ifs with h1 h2
      · obtain ⟨s, hs⟩ := fmtQ_of_neg (qDiv q (pow10 9)) 2 true
          (by rw [qDiv_eq_div, pow10_eq_pow]; exact div_neg_of_neg_of_pos hq (by positivity))
        exact ⟨s ++ " B", by rw [hs]; simp [String.append_assoc]⟩
      · obtain ⟨s, hs⟩ := fmtQ_of_neg (qDiv q (pow10 6)) 2 true
          (by rw [qDiv_eq_div, pow10_eq_pow]; exact div_neg_of_neg_of_pos hq (by positivity))
        exact ⟨s ++ " M", by rw [hs]; simp [String.append_assoc]⟩
      · obtain ⟨s, hs⟩ := fmtQ_of_neg q 0 true hq
        exact ⟨s, by rw [hs]⟩

/-- Witness for C8 on a large negative dollar amount. -/
theorem format_large_currency_contract_witness :
    ∃ s, format_large_currency (PyVal.num (-2500000000)) "$" =
      "$" ++ " " ++ ("-" ++ s) :=
  (format_large_currency_contract (PyVal.num (-2500000000)) "$").2.2
    (-2500000000) rfl (by decide)

/-! ### C1: the debt-ratio guard -/

/-- C1 (amended): the debt ratio is the 2-decimal rendering of
`liabilities / equity` exactly when both columns resolve, both cells are
numeric and equity is nonzero; when any precondition fails — equity zero
included — the result is the unavailable marker, which in this program is
the string `"-"` itself (shared with the currency sentinel), not
`"Infinity"`. -/
theorem debt_ratio_guard (liabC eqC : Option String) (cols : List String)
    (vals : List PyVal) :
    (∀ (lc ec : String) (l e : ℚ),
      liabC = Option.some lc → eqC = Option.some ec → lc ≠ "" → ec ≠ "" →
      cell cols vals lc = PyVal.num l → cell cols vals ec = PyVal.num e →
      e ≠ 0 →
      debt_ratio_str liabC eqC cols vals = fmtQ (l / e) 2 false) ∧
    (¬ debtPre liabC eqC cols vals →
      debt_ratio_str liabC eqC cols vals = "-") ∧
    ("-" : String) ≠ "Infinity" := by
  refine ⟨?_, ?_, by decide⟩
  · rintro lc ec l e rfl rfl hlc hec hl he he0
    simp only [debt_ratio_str]
    rw [if_neg (not_or.mpr ⟨hlc, hec⟩), hl, he]
    show (if e = 0 then "-" else fmtQ (qDiv l e) 2 false) = fmtQ (l / e) 2 false
    rw [if_neg he0, qDiv_eq_div]
  · intro hn
    cases liabC with
    | none => rfl
    | some lc =>
      cases eqC with
      | none => rfl
      | some ec =>
        simp only [debt_ratio_str]
        by_cases hemp : lc = "" ∨ ec = ""
        · rw [if_pos hemp]
        · rw [if_neg hemp]
          push_neg at hemp
          cases hc1 : cell cols vals lc with
          | none => rfl
          | nan => rfl
          | num l =>
            cases hc2 : cell cols vals ec with
            | none => rfl
            | nan => rfl
            | num e =>
              by_cases he0 : e = 0
              · show (if e = 0 then "-" else fmtQ (qDiv l e) 2 false) = "-"
                rw [if_pos he0]
              · exact absurd ⟨lc, ec, l, e, rfl, rfl, hemp.1, hemp.2,
                  hc1, hc2, he0⟩ hn

/-- Witness for C1: the computed case at the scenario row, and a failing
precondition (unresolved equity column) giving the marker. -/
theorem debt_ratio_guard_witness :
    debt_ratio_str (Option.some "Total Liabilities Net Minority Interest")
      (Option.some "Stockholders Equity")
      ["Total Liabilities Net Minority Interest", "Stockholders Equity"]
      [PyVal.num 80, PyVal.num 40] = fmtQ ((80 : ℚ) / 40) 2 false ∧
    debt_ratio_str (Option.some "Total Liabilities") Option.none
      ["Total Liabilities"] [PyVal.num 80] = "-" := by
  constructor
  · exact (debt_ratio_guard _ _ _ _).1 _ _ 80 40 rfl rfl (by decide) (by decide)
      (by decide) (by decide) (by decide)
  · refine (debt_ratio_guard _ _ _ _).2.1 ?_
    rintro ⟨lc, ec, l, e, _, hec, _⟩
    exact Option.noConfusion hec

/-- Counterexample for C1 as stated: at equity 0 and liabilities 80 the
year's debt ratio is the string `"-"`, so the claim's assertion that the
unavailable marker "is not `-`" is false on this code. -/
theorem debt_ratio_zero_equity_gives_dash :
    debt_ratio_str (Option.some "Total Liabilities Net Minority Interest")
      (Option.some "Stockholders Equity")
      ["Total Liabilities Net Minority Interest", "Stockholders Equity"]
      [PyVal.num 80, PyVal.num 0] = "-" := by decide

/-! ### C2: the PER-range guards -/

/-- C2 (amended): a present strictly negative EPS yields the loss marker
`"N/A (적자)"` (whether or not the year has price bars); EPS zero, `None`
or `NaN` yields the unavailable marker `"-"`; a positive EPS with no price
bar in the calendar year yields `"-"`; and the two markers are distinct. -/
theorem per_range_guards (hist : List Bar) (year : ℤ) (eps : PyVal) :
    (∀ q : ℚ, eps = PyVal.num q → q < 0 →
      per_range_str hist year eps = "N/A (적자)") ∧
    (eps = PyVal.num 0 ∨ eps = PyVal.none ∨ eps = PyVal.nan →
      per_range_str hist year eps = "-") ∧
    (∀ q : ℚ, eps = PyVal.num q → 0 < q →
      hist.filter (fun b => decide (b.date.year = year)) = [] →
      per_range_str hist year eps = "-") ∧
    ("N/A (적자)" : String) ≠ "-" := by
  refine ⟨?_, ?_, ?_, by decide⟩
  · rintro q rfl hq
    simp [per_range_str, pyTruthy, pyPos, pyNonpos, hq.ne, hq.le, not_lt.mpr hq.le]
  · rintro (rfl | rfl | rfl) <;>
      simp [per_range_str, pyTruthy, pyPos, pyNonpos]
  · rintro q rfl hq hempty
    simp [per_range_str, hempty, pyTruthy, pyPos, pyNonpos, not_le.mpr hq]

/-- Witness for C2 at concrete inputs: negative EPS without bars, `None`
EPS, and positive EPS with no bar in the year. -/
theorem per_range_guards_witness :
    per_range_str [] 2021 (PyVal.num (-2)) = "N/A (적자)" ∧
    per_range_str [] 2021 PyVal.none = "-" ∧
    per_range_str [⟨⟨2022, 0⟩, 10, 20⟩] 2021 (PyVal.num 2) = "-" :=
  ⟨(per_range_guards [] 2021 (PyVal.num (-2))).1 (-2) rfl (by decide),
   (per_range_guards [] 2021 PyVal.none).2.1 (Or.inr (Or.inl rfl)),
   (per_range_guards [⟨⟨2022, 0⟩, 10, 20⟩] 2021 (PyVal.num 2)).2.2.1 2 rfl
     (by decide) (by decide)⟩

/-- Counterexample for C2 as stated: EPS = 0 is present and `≤ 0`, a 2021
price bar exists, yet the PER output is the unavailable marker `"-"`, not
the loss marker — Python's `eps and eps <= 0` is false at zero. -/
theorem per_range_zero_eps_gives_dash :
    per_range_str [⟨⟨2021, 0⟩, 10, 20⟩] 2021 (PyVal.num 0) = "-" ∧
      ("-" : String) ≠ "N/A (적자)" := ⟨by decide, by decide⟩

/-! ### C3: the EPS display -/

/-- C3: how `eps_str` actually behaves.  A `None` EPS (unresolved column)
raises `TypeError` out of the f-string — aborting the whole analysis —
and a `NaN` EPS renders as the string `"nan"`; contrary to the spec there
is no `"-"` marker path.  Present numeric values do format with 0 decimals
(grouped) for ₩ and 2 decimals otherwise. -/
theorem eps_str_behaviour :
    eps_str PyVal.none "$" = Except.error
      "TypeError: unsupported format string passed to NoneType.__format__" ∧
    eps_str PyVal.none "₩" = Except.error
      "TypeError: unsupported format string passed to NoneType.__format__" ∧
    eps_str PyVal.nan "$" = Except.ok "nan" ∧
    eps_str PyVal.nan "₩" = Except.ok "nan" ∧
    (∀ q : ℚ, eps_str (PyVal.num q) "₩" = Except.ok (fmtQ q 0 true)) ∧
    (∀ (q : ℚ) (sym : String), sym ≠ "₩" →
      eps_str (PyVal.num q) sym = Except.ok (fmtQ q 2 false)) := by
  refine ⟨rfl, rfl, rfl, rfl, fun q => rfl, fun q sym h => ?_⟩
  simp [eps_str, h]

/-- Witness for C3's formatting clauses at concrete values. -/
theorem eps_str_behaviour_witness :
    eps_str (PyVal.num 1234) "₩" = Except.ok (fmtQ 1234 0 true) ∧
    eps_str (PyVal.num (3/2)) "$" = Except.ok (fmtQ (3/2) 2 false) :=
  ⟨(eps_str_behaviour).2.2.2.2.1 1234,
   (eps_str_behaviour).2.2.2.2.2 (3/2) "$" (by decide)⟩

/-! ### The period join: helper lemmas -/

theorem lookupD_mem {α : Type} {l : List (Date × α)} {k : Date} {a : α}
    (h : lookupD l k = Option.some a) : (k, a) ∈ l := by
  induction l with
  | nil => simp [lookupD] at h
  | cons p rest ih =>
    obtain ⟨d, b⟩ := p
    by_cases hd : d = k
    · subst hd
      simp only [lookupD, if_pos rfl] at h
      injection h with hba
      rw [← hba]
      exact List.mem_cons_self _ _
    · simp only [lookupD, if_neg hd] at h
      exact List.mem_cons_of_mem _ (ih h)

theorem mem_lookupD {α : Type} : ∀ {l : List (Date × α)} {k : Date} {a : α},
    (l.map Prod.fst).Nodup → (k, a) ∈ l → lookupD l k = Option.some a := by
  intro l
  induction l with
  | nil => intro k a _ hm; cases hm
  | cons p rest ih =>
    intro k a hnd hm
    obtain ⟨d, b⟩ := p
    simp only [List.map_cons, List.nodup_cons] at hnd
    rcases List.mem_cons.mp hm with heq | htail
    · cases heq
      simp [lookupD]
    · have hd : d ≠ k := by
        rintro rfl
        exact hnd.1 (List.mem_map.mpr ⟨(d, a), htail, rfl⟩)
      simp only [lookupD, if_neg hd]
      exact ih hnd.2 htail

theorem mem_joinRows_iff {fin bs : Frame}
    (hbs : (bs.rows.map Prod.fst).Nodup) (d : Date) (v : List PyVal) :
    (d, v) ∈ joinRows fin bs ↔
      ∃ vf vb, v = vf ++ vb ∧ (d, vf) ∈ fin.rows ∧ (d, vb) ∈ bs.rows := by
  constructor
  · intro hm
    obtain ⟨⟨d2, vf⟩, hmem, hf⟩ := List.mem_filterMap.mp hm
    cases hb : lookupD bs.rows d2 with
    | none => rw [hb] at hf; cases hf
    | some vb =>
      rw [hb] at hf
      injection hf with hf2
      cases hf2
      exact ⟨vf, vb, rfl, hmem, lookupD_mem hb⟩
  · rintro ⟨vf, vb, rfl, hf, hb⟩
    exact List.mem_filterMap.mpr ⟨(d, vf), hf, by rw [mem_lookupD hbs hb]; rfl⟩

theorem df_merged_perm (fin bs : Frame) :
    List.Perm (df_merged fin bs)
      ((joinRows fin bs).filter (fun p => decide (2021 ≤ p.1.year))) :=
  List.perm_insertionSort rowLe _

theorem sorted_df_merged (fin bs : Frame) :
    List.Sorted rowLe (df_merged fin bs) :=
  List.sorted_insertionSort rowLe _

theorem mem_df_merged_iff {fin bs : Frame}
    (hbs : (bs.rows.map Prod.fst).Nodup) (d : Date) (v : List PyVal) :
    (d, v) ∈ df_merged fin bs ↔
      2021 ≤ d.year ∧
        ∃ vf vb, v = vf ++ vb ∧ (d, vf) ∈ fin.rows ∧ (d, vb) ∈ bs.rows := by
  rw [(df_merged_perm fin bs).mem_iff, List.mem_filter,
    mem_joinRows_iff hbs d v]
  simp only [decide_eq_true_eq]
  exact and_comm

/-! ### C5: the period joiner -/

/-- C5: `df_merged` holds exactly the rows whose date appears in both the
income frame and the balance frame (exact date equality, cells
concatenated), restricted to calendar years ≥ 2021 and sorted ascending
by date; consequently no row with year < 2021 ever appears. -/
theorem period_join_contract (fin bs : Frame)
    (hbs : (bs.rows.map Prod.fst).Nodup) :
    (∀ p ∈ df_merged fin bs, 2021 ≤ p.1.year) ∧
    List.Sorted rowLe (df_merged fin bs) ∧
    (∀ (d : Date) (v : List PyVal),
      (d, v) ∈ df_merged fin bs ↔
        2021 ≤ d.year ∧
          ∃ vf vb, v = vf ++ vb ∧ (d, vf) ∈ fin.rows ∧ (d, vb) ∈ bs.rows) := by
  refine ⟨?_, sorted_df_merged fin bs, fun d v => mem_df_merged_iff hbs d v⟩
  intro p hp
  obtain ⟨d, v⟩ := p
  exact ((mem_df_merged_iff hbs d v).mp hp).1

/-- Witness for C5 on the worked scenario frames. -/
theorem period_join_contract_witness :
    ((⟨2021, 0⟩ : Date), [PyVal.num 100, PyVal.num 20, PyVal.num 2,
        PyVal.num 80, PyVal.num 40]) ∈ df_merged finEx bsEx ∧
    List.Sorted rowLe (df_merged finEx bsEx) ∧
    (2021 : ℤ) ≤ (Date.mk 2021 0).year := by
  have h := period_join_contract finEx bsEx (by decide)
  have hm : ((⟨2021, 0⟩ : Date), [PyVal.num 100, PyVal.num 20, PyVal.num 2,
      PyVal.num 80, PyVal.num 40]) ∈ df_merged finEx bsEx :=
    (h.2.2 _ _).mpr ⟨by decide,
      [PyVal.num 100, PyVal.num 20, PyVal.num 2],
      [PyVal.num 80, PyVal.num 40], rfl, by decide, by decide⟩
  exact ⟨hm, h.2.1, h.1 _ hm⟩

/-! ### C6: year monotonicity -/

theorem joinRows_years_sublist (fin bs : Frame) :
    List.Sublist ((joinRows fin bs).map (fun p => p.1.year))
      (fin.rows.map (fun p => p.1.year)) := by
  unfold joinRows
  generalize fin.rows = l
  induction l with
  | nil => simp
  | cons p rest ih =>
    rw [List.filterMap_cons]
    cases h : lookupD bs.rows p.1 with
    | none =>
      simp only [List.map_cons]
      exact ih.cons _
    | some vb =>
      simp only [Option.map_some', List.map_cons]
      exact ih.cons₂ _

theorem df_merged_years_nodup {fin bs : Frame}
    (h : (fin.rows.map (fun p => p.1.year)).Nodup) :
    (yearsOf (df_merged fin bs)).Nodup := by
  have h1 : List.Sublist (((joinRows fin bs).filter
        (fun p => decide (2021 ≤ p.1.year))).map (fun p => p.1.year))
      ((joinRows fin bs).map (fun p => p.1.year)) :=
    (List.filter_sublist _).map _
  have h3 := List.Nodup.sublist (h1.trans (joinRows_years_sublist fin bs)) h
  have hp : List.Perm (yearsOf (df_merged fin bs))
      (((joinRows fin bs).filter
        (fun p => decide (2021 ≤ p.1.year))).map (fun p => p.1.year)) :=
    (df_merged_perm fin bs).map _
  exact hp.symm.nodup h3

/-- C6 (amended): the output years are always nondecreasing along the
sequence, and strictly increasing whenever no two income-statement period
ends share a calendar year; with two period ends inside one calendar year
the code emits two rows with the same year (see the counterexample). -/
theorem years_monotone (fin bs : Frame) :
    List.Chain' (· ≤ ·) (yearsOf (df_merged fin bs)) ∧
    ((fin.rows.map (fun p => p.1.year)).Nodup →
      List.Chain' (· < ·) (yearsOf (df_merged fin bs))) := by
  have hs : List.Pairwise rowLe (df_merged fin bs) := sorted_df_merged fin bs
  have hy : List.Pairwise (· ≤ ·) (yearsOf (df_merged fin bs)) := by
    rw [yearsOf, List.pairwise_map]
    exact hs.imp (fun hab => by unfold rowLe dle at hab; omega)
  constructor
  · exact List.chain'_iff_pairwise.mpr hy
  · intro hnd
    refine List.chain'_iff_pairwise.mpr ?_
    exact (hy.and (df_merged_years_nodup hnd)).imp
      (fun hab => lt_of_le_of_ne hab.1 hab.2)

/-- Witness for C6 on the worked scenario frames. -/
theorem years_monotone_witness :
    List.Chain' (· ≤ ·) (yearsOf (df_merged finEx bsEx)) ∧
    List.Chain' (· < ·) (yearsOf (df_merged finEx bsEx)) :=
  ⟨(years_monotone finEx bsEx).1, (years_monotone finEx bsEx).2 (by decide)⟩

/-- Counterexample for C6 as stated: two fiscal period ends in the same
calendar year survive the join and produce two output rows with equal
year, so the output is not strictly increasing in year. -/
theorem years_monotone_cex :
    yearsOf (df_merged finTwo bsTwo) = [2021, 2021] ∧
    ¬ List.Chain' (· < ·) (yearsOf (df_merged finTwo bsTwo)) := by
  constructor
  · decide
  · intro h
    rw [show yearsOf (df_merged finTwo bsTwo) = [2021, 2021] from by decide] at h
    exact absurd (List.chain'_cons.mp h).1 (by omega)

/-! ### C7: field resolution -/

theorem strIn_empty_ne {pat c : String} (hin : strIn pat c = true)
    (hp : pat ≠ "") : c ≠ "" := by
  rintro rfl
  apply hp
  cases pat with
  | mk data =>
    simp only [strIn, occursIn, List.isEmpty_eq_true] at hin
    rw [hin]

theorem findCol_eq_some_iff {cols : List String} {pat c : String} :
    findCol cols pat = Option.some c ↔ firstMatch pat cols c := by
  rw [findCol, List.find?_eq_some, firstMatch]
  simp [Bool.not_eq_true']

/-- C7: resolution picks the first column (in the fixed left-to-right scan
order of the column list) containing the primary pattern, falls back to
the first column containing the secondary pattern only when no column
matches the primary, and returns `none` when nothing matches; `liab_col`,
`equity_col` and `eps_col` are exactly this resolver at the patterns the
claim names.  Determinism is definitional: the resolvers are pure
functions of the column list. -/
theorem field_resolution (cols : List String) (prim sec : String)
    (hp : prim ≠ "") :
    ((∃ d ∈ cols, strIn prim d = true) →
      ∃ c, resolvePair cols prim sec = Option.some c ∧ firstMatch prim cols c) ∧
    ((∀ d ∈ cols, strIn prim d = false) →
      ∀ c, (resolvePair cols prim sec = Option.some c ↔ firstMatch sec cols c)) ∧
    ((∀ d ∈ cols, strIn prim d = false ∧ strIn sec d = false) →
      resolvePair cols prim sec = Option.none) ∧
    liab_col cols =
      resolvePair cols "Total Liabilities Net Minority Interest" "Total Liabilities" ∧
    equity_col cols = resolvePair cols "Stockholders Equity" "Common Stock Equity" ∧
    eps_col cols = resolvePair cols "Diluted EPS" "Basic EPS" := by
  refine ⟨?_, ?_, ?_, rfl, rfl, rfl⟩
  · intro hex
    have hsome : (cols.find? (fun c => strIn prim c)).isSome :=
      List.find?_isSome.mpr (by simpa using hex)
    obtain ⟨c, hc⟩ := Option.isSome_iff_exists.mp hsome
    have hcf : findCol cols prim = Option.some c := hc
    have hne : c ≠ "" := strIn_empty_ne (List.find?_some hc) hp
    refine ⟨c, ?_, findCol_eq_some_iff.mp hcf⟩
    simp [resolvePair, hcf, orElsePy, hne]
  · intro hall c
    have hnone : findCol cols prim = Option.none :=
      List.find?_eq_none.mpr (by simpa using hall)
    rw [resolvePair, hnone]
    show findCol cols sec = Option.some c ↔ _
    exact findCol_eq_some_iff
  · intro hall
    have h1 : findCol cols prim = Option.none :=
      List.find?_eq_none.mpr (fun x hx => by simp [(hall x hx).1])
    have h2 : findCol cols sec = Option.none :=
      List.find?_eq_none.mpr (fun x hx => by simp [(hall x hx).2])
    simp [resolvePair, h1, h2, orElsePy]

/-- Witness for C7: a primary hit, a secondary-only fallback, and a full
miss, at concrete column lists. -/
theorem field_resolution_witness :
    (∃ c, resolvePair ["Gross Profit", "Total Liabilities Net Minority Interest"]
        "Total Liabilities Net Minority Interest" "Total Liabilities" =
          Option.some c ∧
      firstMatch "Total Liabilities Net Minority Interest"
        ["Gross Profit", "Total Liabilities Net Minority Interest"] c) ∧
    (resolvePair ["Gross Profit", "Basic EPS"] "Diluted EPS" "Basic EPS" =
        Option.some "Basic EPS" ↔
      firstMatch "Basic EPS" ["Gross Profit", "Basic EPS"] "Basic EPS") ∧
    resolvePair ["Gross Profit"] "Diluted EPS" "Basic EPS" = Option.none :=
  ⟨(field_resolution _ _ "Total Liabilities" (by decide)).1
      ⟨"Total Liabilities Net Minority Interest", by decide, by decide⟩,
   (field_resolution _ "Diluted EPS" "Basic EPS" (by decide)).2.1
      (by decide) "Basic EPS",
   (field_resolution _ "Diluted EPS" "Basic EPS" (by decide)).2.2.1 (by decide)⟩

/-! ### C4: the worked scenario -/

/-- C4 (amended): on the spec's scenario input the 2021 output row has
revenue `"$ 100"` (formatted from 100), debt ratio `"2.00"`, EPS `"2.00"`,
and PER range `"5.0 ~ 10.0배"` — rendered `"{low:.1f} ~ {high:.1f}배"`,
with the Korean suffix `배` rather than the claim's `x`. -/
theorem scenario_2021_row :
    analyze finEx bsEx histEx "$" =
      Except.ok [⟨"2021", "$ 100", "$ 20", "2.00", "5.0 ~ 10.0배", "2.00"⟩] := rfl

/-- Counterexample for C4 as stated: the scenario's PER range renders as
`"5.0 ~ 10.0배"`, which differs from the claim's exact rendering
`"5.0 ~ 10.0x"`. -/
theorem scenario_2021_row_per_suffix_cex :
    (analyze finEx bsEx histEx "$").map (List.map OutRow.perRange) =
      Except.ok ["5.0 ~ 10.0배"] ∧
    ("5.0 ~ 10.0배" : String) ≠ "5.0 ~ 10.0x" :=
  ⟨rfl, by decide⟩

end StockApp
